import Mathlib

/-!
Verification of the MMIO-trace-to-Verilog generator core.

Python strings are modelled as `List Char` at the character-manipulation
level and as `String` at the text-assembly level.  Machine integers are
`Nat`/`Int` with explicit `% 2^32` where the source masks.  Fallible code
returns `Option`.  Python dicts (which preserve first-insertion order) are
modelled as association lists with in-place update (`dInsert`).
-/

namespace Mmio

/-! ### Character and string helpers (modelling Python `str` primitives) -/

/-- Hex-digit test, as accepted by Python `int(s, 16)` digit positions. -/
def isHexDigitB (c : Char) : Bool :=
  c.isDigit || ['a','b','c','d','e','f'].contains c || ['A','B','C','D','E','F'].contains c

/-- Numeric value of one hex digit (only ever applied to hex digits). -/
def hexCharVal (c : Char) : Nat :=
  if c.isDigit then c.toNat - 48
  else if ['a','b','c','d','e','f'].contains c then c.toNat - 87
  else if ['A','B','C','D','E','F'].contains c then c.toNat - 55
  else 0

/-- Big-endian hex digit list to number. -/
def hexDigitsToNat (l : List Char) : Nat :=
  l.foldl (fun acc c => 16 * acc + hexCharVal c) 0

/-- Decimal digit list to number. -/
def decDigitsToNat (l : List Char) : Nat :=
  l.foldl (fun acc c => 10 * acc + (c.toNat - 48)) 0

/-- Lowercase hex digit character for a value 0..15. -/
def hexDigitCharL (d : Nat) : Char :=
  if d < 10 then Char.ofNat (48 + d) else Char.ofNat (87 + d)

/-- Uppercase hex digit character for a value 0..15. -/
def hexDigitCharU (d : Nat) : Char :=
  if d < 10 then Char.ofNat (48 + d) else Char.ofNat (55 + d)

/-- Fuel-driven hex rendering (big-endian, no leading zeros, empty for 0). -/
def hexAux (emit : Nat → Char) : Nat → Nat → List Char
  | 0, _ => []
  | fuel + 1, n => if n = 0 then [] else hexAux emit fuel (n / 16) ++ [emit (n % 16)]

/-- Zero-pad a digit list on the left to a minimum width, as Python `%0*x`. -/
def padHex (width : Nat) (ds : List Char) : List Char :=
  List.replicate (width - ds.length) '0' ++ ds

/-- Python `f"{n:08x}"`. -/
def hex8Lower (n : Nat) : List Char := padHex 8 (hexAux hexDigitCharL n n)

/-- Python `f"{n:08X}"`. -/
def hex8Upper (n : Nat) : List Char := padHex 8 (hexAux hexDigitCharU n n)

/-- Python `f"{n:05X}"`. -/
def hex5Upper (n : Nat) : List Char := padHex 5 (hexAux hexDigitCharU n n)

/-- Python `int(s, 16)` restricted to unsigned literals: an optional
`0x`/`0X` prefix followed by one or more hex digits (signs, surrounding
whitespace and underscores are not modelled; no trace field uses them). -/
def pyIntHexL (l : List Char) : Option Nat :=
  let core := match l with
    | '0' :: 'x' :: rest => rest
    | '0' :: 'X' :: rest => rest
    | other => other
  if core ≠ [] ∧ core.all isHexDigitB then some (hexDigitsToNat core) else none

/-- Python `int(s)` restricted to an optional minus sign and decimal digits. -/
def pyIntDecL (l : List Char) : Option Int :=
  match l with
  | '-' :: ds => if ds ≠ [] ∧ ds.all Char.isDigit then some (-(decDigitsToNat ds : Int)) else none
  | ds => if ds ≠ [] ∧ ds.all Char.isDigit then some ((decDigitsToNat ds : Int)) else none

/-- Does the character list begin with the given character? -/
def startsChar (c : Char) : List Char → Bool
  | [] => false
  | d :: _ => d == c

/-- Python `str.strip()` on a character list. -/
def pyStripL (l : List Char) : List Char :=
  ((l.dropWhile Char.isWhitespace).reverse.dropWhile Char.isWhitespace).reverse

/-- Python `str.split()` (split on whitespace runs, dropping empty pieces). -/
def pySplitWs (l : List Char) : List (List Char) :=
  (l.foldr
    (fun c acc =>
      if c.isWhitespace then [] :: acc
      else match acc with
        | [] => [[c]]
        | w :: ws => (c :: w) :: ws)
    []).filter (· ≠ [])

/-- Extend the first piece of a split with one leading character. -/
def consFirst (c : Char) : List (List Char) → List (List Char)
  | [] => [[c]]
  | w :: ws => (c :: w) :: ws

/-- Split a character list at every occurrence of a separator character
(Python `str.split(sep)`). -/
def splitChar (sep : Char) : List Char → List (List Char)
  | [] => [[]]
  | c :: rest =>
      if c = sep then [] :: splitChar sep rest
      else consFirst c (splitChar sep rest)

/-- Python `str.splitlines()`, modelling only `\n` terminators (the trace
format is LF-separated; a final trailing newline yields no extra line). -/
def pySplitLinesL (l : List Char) : List (List Char) :=
  let ps := splitChar '\n' l
  if ps.getLast? = some [] then ps.dropLast else ps

/-- Python `str.ljust(n, '0')`. -/
def ljustZero (n : Nat) (l : List Char) : List Char :=
  l ++ List.replicate (n - l.length) '0'

/-- Python `str.zfill(n)` for unsigned strings. -/
def pyZfill (n : Nat) (s : String) : String :=
  if s.length ≥ n then s else String.mk (List.replicate (n - s.length) '0' ++ s.data)

/-- Python `str.replace("0x", "")`: delete every (non-overlapping,
left-to-right) occurrence of the two-character substring `0x`. -/
def replace0x : List Char → List Char
  | '0' :: 'x' :: rest => replace0x rest
  | c :: rest => c :: replace0x rest
  | [] => []

/-- Truthiness of `s.strip()`: the string has a non-whitespace character. -/
def strNonBlank (s : String) : Bool :=
  s.data.any (fun c => !c.isWhitespace)

/-- Python `bit_length()` via fuel recursion. -/
def bitLenAux : Nat → Nat → Nat
  | 0, _ => 0
  | fuel + 1, n => if n = 0 then 0 else bitLenAux fuel (n / 2) + 1

/-- Python `(n).bit_length()`. -/
def pyBitLength (n : Nat) : Nat := bitLenAux n n

/-- Lexicographic code-point comparison of character lists (Python `str <=`). -/
def listCharLeB : List Char → List Char → Bool
  | [], _ => true
  | _ :: _, [] => false
  | a :: as, b :: bs =>
      if a.toNat < b.toNat then true
      else if b.toNat < a.toNat then false
      else listCharLeB as bs

/-- Python `str <=` on `String`. -/
def strLeB (s t : String) : Bool := listCharLeB s.data t.data

/-- Insert into a list sorted by `strLeB`. -/
def insertSorted (s : String) : List String → List String
  | [] => [s]
  | t :: ts => if strLeB s t then s :: t :: ts else t :: insertSorted s ts

/-- Ascending insertion sort by code points (Python `sorted` on strings). -/
def sortStrings : List String → List String
  | [] => []
  | s :: ss => insertSorted s (sortStrings ss)

/-! ### Python-dict model

Association lists with in-place value update preserve Python's
first-insertion key order. -/

/-- Python `d.get(k, dv)`. -/
def dGet [DecidableEq α] : List (α × β) → α → β → β
  | [], _, dv => dv
  | (k', v) :: rest, k, dv => if k' = k then v else dGet rest k dv

/-- Python `d.get(k)` returning `None` when absent. -/
def dFind [DecidableEq α] : List (α × β) → α → Option β
  | [], _ => none
  | (k', v) :: rest, k => if k' = k then some v else dFind rest k

/-- Python `d[k] = v`: replace in place or append at the end. -/
def dInsert [DecidableEq α] : List (α × β) → α → β → List (α × β)
  | [], k, v => [(k, v)]
  | (k', v') :: rest, k, v =>
      if k' = k then (k', v) :: rest else (k', v') :: dInsert rest k v

/-- Python `list(d.keys())`. -/
def dKeys (d : List (α × β)) : List α := d.map Prod.fst

/-- Python `k in d`. -/
def dMem [DecidableEq α] (d : List (α × β)) (k : α) : Bool :=
  (dKeys d).contains k

/-! ### mmio/core/parse_logic.py — `MMIOParseLogic` -/

/-- Source `MMIOParseLogic.last_char_to_shift_amount`: base address and
shift amount from the final address digit. -/
def lastCharToShiftAmount (addrHex : List Char) (lastChar : Char) : List (List Char × Nat) :=
  let c := lastChar.toLower
  if ['1','2','3','0'].contains c then
    let baseAddr := addrHex.dropLast ++ ['0']
    if c = '0' then [(baseAddr, 0)]
    else if c = '1' then [(baseAddr, 8)]
    else if c = '2' then [(baseAddr, 16)]
    else [(baseAddr, 24)]
  else if ['5','6','7','4'].contains c then
    let baseAddr := addrHex.dropLast ++ ['4']
    if c = '4' then [(baseAddr, 0)]
    else if c = '5' then [(baseAddr, 8)]
    else if c = '6' then [(baseAddr, 16)]
    else [(baseAddr, 24)]
  else if ['9','a','b','8'].contains c then
    let baseAddr := addrHex.dropLast ++ ['8']
    if c = '8' then [(baseAddr, 0)]
    else if c = '9' then [(baseAddr, 8)]
    else if c = 'a' then [(baseAddr, 16)]
    else [(baseAddr, 24)]
  else if ['d','e','f','c'].contains c then
    let baseAddr := addrHex.dropLast ++ ['c']
    if c = 'c' then [(baseAddr, 0)]
    else if c = 'd' then [(baseAddr, 8)]
    else if c = 'e' then [(baseAddr, 16)]
    else [(baseAddr, 24)]
  else [(addrHex, 0)]

/-- Source `MMIOParseLogic.align_address_and_value`.  `none` models the
`ValueError` of `int(value, 16)`; the `addr` argument is nonempty at every
call site (it is a whitespace-split field). -/
def alignAddressAndValue (addr value : List Char) : Option (List Char × List Char) :=
  match addr.getLast? with
  | none => none
  | some lastChar =>
      match lastCharToShiftAmount (addr.drop 2) lastChar with
      | [] => none
      | (baseAddr, shiftAmount) :: _ =>
          match pyIntHexL value with
          | none => none
          | some valueInt =>
              some (baseAddr, hex8Lower ((valueInt <<< shiftAmount) % 4294967296))

/-- Source `MMIOParseLogic.is_valid_hex`. -/
def isValidHex (value : List Char) : Bool :=
  match value with
  | '0' :: 'x' :: _ => (pyIntHexL value).isSome
  | _ => false

/-- Source `MMIOParseLogic.is_valid_line`. -/
def isValidLine (line : List Char) : Bool :=
  startsChar 'W' (pyStripL line) || startsChar 'R' (pyStripL line)

/-- Source `MMIOParseLogic.is_write`. -/
def isWrite (line : List Char) : Bool := startsChar 'W' (pyStripL line)

/-- Raw record produced by `MMIOParseLogic.parse_line` (the `OrderedDict`). -/
structure ParsedLine where
  operation : String
  counter : Int
  timestamp : List Char
  barNumber : Int
  address : String
  value : String
deriving DecidableEq

/-- Canonical rendering of `str(float(s))` for plain decimal literals
`[-]digits[.digits]` with at least one digit: leading integer zeros are
dropped (keeping one) and trailing fractional zeros are dropped (keeping
one).  Exponent notation and specials are outside the modelled domain. -/
def pyFloatNormalize (l : List Char) : Option (List Char) :=
  let (sign, body) := match l with
    | '-' :: rest => (['-'], rest)
    | rest => (([] : List Char), rest)
  let intPart := body.takeWhile (· ≠ '.')
  let fracPart := (body.dropWhile (· ≠ '.')).drop 1
  if ¬ (intPart.all Char.isDigit ∧ fracPart.all Char.isDigit) then none
  else if intPart = [] ∧ fracPart = [] then none
  else
    let intCanon := match intPart.dropWhile (· = '0') with
      | [] => ['0']
      | ds => ds
    let fracCanon := match (fracPart.reverse.dropWhile (· = '0')).reverse with
      | [] => ['0']
      | ds => ds
    some (sign ++ intCanon ++ ['.'] ++ fracCanon)

/-- Source `MMIOParseLogic.parse_line`.  All `ValueError` paths collapse to
`none`.  The timestamp field is kept as the canonical rendering of the
parsed float (see `pyFloatNormalize`). -/
def parseLine (line : List Char) : Option ParsedLine :=
  if ¬ isValidLine line then none
  else
    let parts := pySplitWs line
    if parts.length ≠ 8 then none
    else
      let operation := if isWrite line then "W" else "R"
      let address := (parts.getD 4 []).drop 2
      if address.length < 1 then none
      else
        match pyIntDecL (parts.getD 3 []) with
        | none => none
        | some bar =>
            match alignAddressAndValue (parts.getD 4 []) (parts.getD 5 []) with
            | none => none
            | some (alignedAddress, shiftedValue) =>
                if ¬ (isValidHex (parts.getD 4 []) ∧ isValidHex (parts.getD 5 [])) then none
                else
                  match pyIntDecL (parts.getD 1 []) with
                  | none => none
                  | some counter =>
                      match pyFloatNormalize (parts.getD 2 []) with
                      | none => none
                      | some ts =>
                          some { operation := operation, counter := counter,
                                 timestamp := ts, barNumber := bar,
                                 address := String.mk alignedAddress,
                                 value := String.mk shiftedValue }

/-! ### mmio/core/mmio_parser.py — `MMIOParser.parse_content` -/

/-- Dictionary appended by `parse_content` for each successfully parsed line. -/
structure PRecord where
  operation : String
  counter : Int
  timestamp : List Char
  bar : Int
  address : String
  value : String
deriving DecidableEq

/-- One iteration of the `parse_content` loop: skip non-`R`/`W` lines,
re-render the value as `f"{num:08X}"`, drop the line on any `ValueError`. -/
def parseContentLine (line : List Char) : Option PRecord :=
  if ¬ (startsChar 'R' line || startsChar 'W' line) then none
  else
    match parseLine line with
    | none => none
    | some p =>
        match pyIntHexL p.value.data with
        | none => none
        | some num =>
            some { operation := p.operation, counter := p.counter,
                   timestamp := p.timestamp, bar := p.barNumber,
                   address := p.address, value := String.mk (hex8Upper num) }

/-- Source `MMIOParser.parse_content`.  Empty or whitespace-only content
returns the empty list (the documented `FileAccessError` is never raised). -/
def parseContent (content : String) : List PRecord :=
  if pyStripL content.data = [] then []
  else (pySplitLinesL content.data).filterMap parseContentLine

/-! ### mmio/domain/models/verilog_data.py — `VerilogData` and `_MMIOTracker` -/

/-- Source `VerilogData.normalize_timestamp`, acting on the decimal
rendering of the float: last character of the rendering concatenated with
the fractional digits left-justified to 6 places.  `none` models the
`IndexError`/`ValueError` paths (no dot, or non-digit characters). -/
def normalizeTimestamp (l : List Char) : Option Nat :=
  match l.getLast? with
  | none => none
  | some seconds =>
      match (splitChar '.' l).get? 1 with
      | none => none
      | some fracPiece =>
          let nanos := ljustZero 6 fracPiece
          let digits := seconds :: nanos
          if digits.all Char.isDigit then some (decDigitsToNat digits) else none

/-- Source `VerilogData.validate_operation`. -/
def validateOperation (op : String) : Option String :=
  if op = "R" ∨ op = "W" then some op else none

/-- Source `VerilogData.validate_address`: hex-parseable, truncated to the
last five characters (`value[-5:]`). -/
def validateAddress (a : String) : Option String :=
  match pyIntHexL a.data with
  | none => none
  | some _ => some (String.mk (a.data.drop (a.data.length - 5)))

/-- Source `VerilogData.validate_bar`. -/
def validateBar (b : Int) : Option Int :=
  if b = 0 then some 0 else if 0 ≤ b ∧ b ≤ 9 then some b else none

/-- Source `VerilogData.format_value`: `f"{num:05X}"` for addresses,
`f"{num:08X}"` otherwise (`None` on parse failure). -/
def formatValueHex (isAddress : Bool) (s : String) : Option String :=
  match pyIntHexL s.data with
  | none => none
  | some n => some (String.mk (if isAddress then hex5Upper n else hex8Upper n))

/-- A fully populated `VerilogData` instance as produced by the pipeline
(`register_value` and `description` are always `None` there and are
omitted; `bar` is in `0..9` after validation). -/
structure VData where
  operation : String
  bar : Nat
  address : String
  value : String
  timestamp : Nat
deriving DecidableEq

/-- Source `VerilogData.calculate_bit_width`. -/
def calculateBitWidth (value : String) : Nat :=
  if value = "" then 32
  else match pyIntHexL value.data with
    | some n => max (pyBitLength n) 1
    | none => 32

/-- Source `_MMIOTracker`'s class-level state: the process-wide registry. -/
structure Tracker where
  allInstances : List VData
  addressBitWidths : List (String × Nat)
  defaultValues : List (Nat × (String × String))
deriving DecidableEq

/-- The registry at process start. -/
def emptyTracker : Tracker := ⟨[], [], []⟩

/-- Source `_MMIOTracker.update_address_bit_width` (non-`None` fields). -/
def updateAddressBitWidth (d : List (String × Nat)) (address value : String) :
    List (String × Nat) :=
  dInsert d address (max (calculateBitWidth value) (dGet d address 0))

/-- Source `_MMIOTracker.update_default_values` (non-`None` fields): the
slot for the operation's direction is overwritten on every call. -/
def updateDefaultValues (d : List (Nat × (String × String))) (bar : Nat)
    (operation value : String) : List (Nat × (String × String)) :=
  let d' := if dMem d bar then d else dInsert d bar ("00000000", "00000000")
  let cur := dGet d' bar ("00000000", "00000000")
  if operation = "R" then dInsert d' bar (value, cur.2)
  else dInsert d' bar (cur.1, value)

/-- The tracking updates performed at the end of `VerilogData.from_dict`:
append to `all_instances`, update the bit width, update the defaults. -/
def trackerIngest (t : Tracker) (v : VData) : Tracker :=
  { allInstances := t.allInstances ++ [v]
    addressBitWidths := updateAddressBitWidth t.addressBitWidths v.address v.value
    defaultValues := updateDefaultValues t.defaultValues v.bar v.operation v.value }

/-- Registry contents after ingesting an operation sequence from scratch. -/
def trackerOfOps (ops : List VData) : Tracker := ops.foldl trackerIngest emptyTracker

/-- Source `VerilogData.from_dict` plus `format_and_validate`, for a
pipeline record.  Field validators re-run on every assignment
(`validate_assignment=True`), so the address is re-truncated after each
formatting step.  All `ValidationError` paths collapse to `none`; the
(pipeline-unreachable) `format_value`-returns-`None` paths are also
modelled as `none`. -/
def fromDict (r : PRecord) : Option VData := do
  let op ← validateOperation r.operation
  let addr0 ← validateAddress r.address
  let bar0 ← validateBar r.bar
  if startsChar '-' r.timestamp then none
  else do
    let value1 := String.mk (replace0x r.value.data)
    let addr1 ← validateAddress (String.mk (replace0x addr0.data))
    let addr2 ← (formatValueHex true addr1).bind validateAddress
    let value2 ← formatValueHex false value1
    let ts ← normalizeTimestamp r.timestamp
    let bar1 ← validateBar bar0
    let op1 ← validateOperation op
    let addr3 ← validateAddress addr2
    some { operation := op1, bar := bar1.toNat, address := addr3,
           value := value2, timestamp := ts }

/-- Source `VerilogData.read_values` / `write_values` filters. -/
def instancesFor (ops : List VData) (bar : Nat) (operation : String) : List VData :=
  ops.filter (fun v => v.operation == operation && v.bar == bar)

/-- Source `VerilogData.read_values(bar)`. -/
def readValuesFor (ops : List VData) (bar : Nat) : List String :=
  (instancesFor ops bar "R").map (·.value)

/-- Source `VerilogData.write_values(bar)`. -/
def writeValuesFor (ops : List VData) (bar : Nat) : List String :=
  (instancesFor ops bar "W").map (·.value)

/-- Source `VerilogData.addresses(bar)`. -/
def addressesFor (ops : List VData) (bar : Nat) : List String :=
  (ops.filter (fun v => v.bar == bar)).map (·.address)

/-- Source `_MMIOTracker.get_default_values`. -/
def getDefaultValues (t : Tracker) (bar : Nat) : String × String :=
  dGet t.defaultValues bar ("00000000", "00000000")

/-- Source `_MMIOTracker.get_bar_address_bit_widths`. -/
def getBarAddressBitWidths (t : Tracker) (bar : Nat) : List (String × Nat) :=
  t.addressBitWidths.filter (fun p => (addressesFor t.allInstances bar).contains p.1)

/-! ### mmio/application/verilog — generators -/

/-- Addresses of the operations of one direction in one BAR. -/
def opAddressesFor (ops : List VData) (bar : Nat) (operation : String) : List String :=
  (instancesFor ops bar operation).map (·.address)

/-- Source `VerilogGenerator.get_unique_sorted_addresses`: `sorted(set(a))`. -/
def getUniqueSortedAddresses (addresses : List String) : List String :=
  sortStrings addresses.dedup

/-- Source `CounterGenerator.calculate_counter_width`: counts matching
operations across ALL BARs (no bar filter in the source). -/
def calculateCounterWidth (ops : List VData) (address operation : String) : Nat :=
  max 1 (pyBitLength ((ops.filter
    (fun v => v.address == address && v.operation == operation)).length))

/-- Source `CounterGenerator.generate_read_counters`. -/
def generateReadCounters (ops : List VData) (bar : Nat) : String :=
  let readAddrs := opAddressesFor ops bar "R"
  if readAddrs = [] then ""
  else
    String.join ((getUniqueSortedAddresses readAddrs).map (fun addr =>
      let width := calculateCounterWidth ops addr "R"
      s!"    bit [{width - 1}:0] R_C_{addr};\n"))

/-- Source `CounterGenerator.generate_write_counters`. -/
def generateWriteCounters (ops : List VData) (bar : Nat) : String :=
  let writeAddrs := opAddressesFor ops bar "W"
  if writeAddrs = [] then ""
  else
    String.join ((getUniqueSortedAddresses writeAddrs).map (fun addr =>
      let width := calculateCounterWidth ops addr "W"
      s!"    bit [{width - 1}:0] W_C_{addr};\n"))

/-- Source `CounterGenerator.reset_read_counters`. -/
def resetReadCounters (ops : List VData) (bar : Nat) : String :=
  let readAddrs := opAddressesFor ops bar "R"
  if readAddrs = [] then ""
  else
    String.join ((getUniqueSortedAddresses readAddrs).map (fun addr =>
      s!"            R_C_{addr} <= \x270;\n"))

/-- Source `CounterGenerator.reset_write_counters`. -/
def resetWriteCounters (ops : List VData) (bar : Nat) : String :=
  let writeAddrs := opAddressesFor ops bar "W"
  if writeAddrs = [] then ""
  else
    String.join ((getUniqueSortedAddresses writeAddrs).map (fun addr =>
      s!"            W_C_{addr} <= \x270;\n"))

/-- Source `ROMGenerator.get_rom_values_for_address`. -/
def getRomValuesForAddress (ops : List VData) (bar : Nat) (address operation : String) :
    List String :=
  (ops.filter (fun v =>
    v.bar == bar && v.address == address && v.operation == operation)).map (·.value)

/-- Source `ROMGenerator.generate_read_roms`.  The source renders
`bit_width - 1` with Python integers, so the width is coerced to `Int`. -/
def generateReadRoms (t : Tracker) (bar : Nat) : String :=
  let addressWidths := getBarAddressBitWidths t bar
  let readAddrs := opAddressesFor t.allInstances bar "R"
  String.join ((getUniqueSortedAddresses readAddrs).map (fun address =>
    let bitWidth : Int := Int.ofNat (dGet addressWidths address 0)
    let values := getRomValuesForAddress t.allInstances bar address "R"
    if values = [] then ""
    else
      let size := values.length
      s!"    bit [{bitWidth - 1}:0] R_{address} [0:{size - 1}];\n"))

/-- Source `ROMGenerator.generate_write_roms`. -/
def generateWriteRoms (t : Tracker) (bar : Nat) : String :=
  let addressWidths := getBarAddressBitWidths t bar
  let writeAddrs := opAddressesFor t.allInstances bar "W"
  String.join ((getUniqueSortedAddresses writeAddrs).map (fun address =>
    let bitWidth : Int := Int.ofNat (dGet addressWidths address 0)
    let values := getRomValuesForAddress t.allInstances bar address "W"
    if values = [] then ""
    else
      let size := values.length
      s!"    bit [{bitWidth - 1}:0] W_{address} [0:{size - 1}];\n"))

/-- Source `ROMGenerator.get_address_value_pairs`: a dict keyed by address
in first-seen order, each value list in trace order with duplicates. -/
def getAddressValuePairs (ops : List VData) (bar : Nat) (operation : String) :
    List (String × List String) :=
  ops.foldl (fun d v =>
    if v.bar == bar && v.operation == operation then
      dInsert d v.address (dGet d v.address [] ++ [v.value])
    else d) []

/-- One ROM initialization assignment line. -/
def romInitLine (romName : String) (i : Nat) (v : String) : String :=
  s!"            {romName}[{i}] <= 32\x27h{v};\n"

/-- The assignment lines written for one ROM in `initialize_read_roms` /
`initialize_write_roms`: index `i` holds the `(i+1)`-th observed value. -/
def romInitAssignLines (romName : String) (values : List String) : List String :=
  values.enum.map (fun (i, v) => romInitLine romName i v)

/-- Source `ROMGenerator.initialize_read_roms` (buffer content). -/
def initializeReadRoms (ops : List VData) (bar : Nat) : String :=
  String.join ((getAddressValuePairs ops bar "R").map (fun (address, values) =>
    String.join (romInitAssignLines ("R_" ++ address) values))) ++ "\n"

/-- Source `ROMGenerator.initialize_write_roms` (buffer content). -/
def initializeWriteRoms (ops : List VData) (bar : Nat) : String :=
  String.join ((getAddressValuePairs ops bar "W").map (fun (address, values) =>
    String.join (romInitAssignLines ("W_" ++ address) values))) ++ "\n"

/-- Chunks of eight addresses per emitted source line (fuel recursion). -/
def chunks8Aux : Nat → List String → List (List String)
  | 0, _ => []
  | _, [] => []
  | fuel + 1, l => l.take 8 :: chunks8Aux fuel (l.drop 8)

/-- Source `range(0, len(sorted), 8)` grouping. -/
def chunks8 (l : List String) : List (List String) := chunks8Aux l.length l

/-- The grouped case-label lines of an address-check function. -/
def addrCheckCaseLines (sorted : List String) : String :=
  String.join ((chunks8 sorted).enum.map (fun (i, grp) =>
    "                " ++
    String.intercalate ", " (grp.map (fun a =>
      let z := pyZfill 4 a
      s!"20\x27h{z}")) ++
    (if i * 8 + 8 < sorted.length then ",\n" else ":\n")))

/-- Source `AddressCheckGenerator.generate_read_address_check`. -/
def generateReadAddressCheck (ops : List VData) (bar : Nat) : String :=
  let sortedRead := getUniqueSortedAddresses (opAddressesFor ops bar "R")
  if sortedRead = [] then ""
  else
    "    function read_addr_check;\n" ++
    "        input [19:0] addr;\n" ++
    "        begin\n" ++
    "            case (addr)\n" ++
    addrCheckCaseLines sortedRead ++
    "                    read_addr_check = 1\x27b1;\n" ++
    "                default: read_addr_check = 1\x27b0;\n" ++
    "            endcase\n" ++
    "        end\n" ++
    "    endfunction\n\n"

/-- Source `AddressCheckGenerator.generate_write_address_check`. -/
def generateWriteAddressCheck (ops : List VData) (bar : Nat) : String :=
  let sortedWrite := getUniqueSortedAddresses (opAddressesFor ops bar "W")
  if sortedWrite = [] then ""
  else
    "    function write_addr_check;\n" ++
    "        input [19:0] addr;\n" ++
    "        begin\n" ++
    "            case (addr)\n" ++
    addrCheckCaseLines sortedWrite ++
    "                    write_addr_check = 1\x27b1;\n" ++
    "                default: write_addr_check = 1\x27b0;\n" ++
    "            endcase\n" ++
    "        end\n" ++
    "    endfunction\n\n"

/-- Source `ResponseLogicGenerator.generate_read_logic`.  Note the final
unconditional `rd_rsp_data` assignment emitted after the `endcase`, and
the occurrence count taken across all BARs. -/
def generateReadLogic (t : Tracker) (bar : Nat) : String :=
  let readAddrs := opAddressesFor t.allInstances bar "R"
  if readAddrs = [] then ""
  else
    let defaultValue := (getDefaultValues t bar).1
    "            if (drd_req_valid && read_addr_check(local_read_addr)) begin\n" ++
    "                case(local_read_addr)\n" ++
    String.join ((sortStrings readAddrs.dedup).map (fun addr =>
      let count := (t.allInstances.filter
        (fun v => v.address == addr && v.operation == "R")).length
      if count > 1 then
        let cw := pyBitLength count
        let cm := count - 1
        s!"                    16\x27h{addr}: begin\n" ++
        s!"                        R_C_{addr} <= (R_C_{addr} == {cw}\x27d{cm}) ? {cw}\x27d0 : R_C_{addr} + 1;\n" ++
        s!"                        rd_rsp_data <= R_{addr}[R_C_{addr}];\n" ++
        "                    end\n"
      else
        s!"                    16\x27h{addr}: rd_rsp_data <= R_{addr}[0];\n")) ++
    s!"                    default: rd_rsp_data <= 32\x27h{defaultValue};\n" ++
    "                endcase\n" ++
    s!"                rd_rsp_data <= 32\x27h{defaultValue};\n" ++
    "            end\n"

/-- Source `ResponseLogicGenerator.generate_write_logic`. -/
def generateWriteLogic (t : Tracker) (bar : Nat) : String :=
  let writeAddrs := opAddressesFor t.allInstances bar "W"
  if writeAddrs = [] then ""
  else
    let defaultValue := (getDefaultValues t bar).2
    "            if (dwr_valid && write_addr_check(local_write_addr)) begin\n" ++
    "                case(local_write_addr)\n" ++
    String.join ((sortStrings writeAddrs.dedup).map (fun addr =>
      let count := (t.allInstances.filter
        (fun v => v.address == addr && v.operation == "W")).length
      if count > 1 then
        let cw := pyBitLength count
        let cm := count - 1
        s!"                    16\x27h{addr}: begin\n" ++
        s!"                        W_C_{addr} <= (W_C_{addr} == {cw}\x27d{cm}) ? {cw}\x27d0 : W_C_{addr} + 1;\n" ++
        s!"                        W_{addr}[W_C_{addr}] <= dwr_data;\n" ++
        "                    end\n"
      else
        s!"                    16\x27h{addr}: W_{addr}[0] <= dwr_data;\n")) ++
    s!"                    default: wr_data_out <= 32\x27h{defaultValue};\n" ++
    "                endcase\n" ++
    "            end\n" ++
    "        end\n" ++
    "    end\n"

/-- Source `StaticCodeGenerator.generate_module_header`. -/
def generateModuleHeader (moduleHeader : String) (bar : Nat) : String :=
  s!"module pcileech_bar_impl_{moduleHeader}_{bar}(\n" ++
  "    input               rst,\n" ++
  "    input               clk,\n" ++
  "    // incoming BAR writes:\n" ++
  "    input [31:0]        wr_addr,\n" ++
  "    input [3:0]         wr_be,\n" ++
  "    input [31:0]        wr_data,\n" ++
  "    input               wr_valid,\n" ++
  "    // incoming BAR reads:\n" ++
  "    input  [87:0]       rd_req_ctx,\n" ++
  "    input  [31:0]       rd_req_addr,\n" ++
  "    input               rd_req_valid,\n" ++
  "    input  [31:0]       base_address_register,\n" ++
  "    // outgoing BAR read replies:\n" ++
  "    output logic [87:0] rd_rsp_ctx,\n" ++
  "    output logic [31:0] rd_rsp_data,\n" ++
  "    output logic        rd_rsp_valid\n" ++
  ");\n\n" ++
  "    bit [87:0]      drd_req_ctx;\n" ++
  "    bit [31:0]      drd_req_addr;\n" ++
  "    bit             drd_req_valid;\n" ++
  "\n" ++
  "    bit [31:0]      dwr_addr;\n" ++
  "    bit [31:0]      dwr_data;\n" ++
  "    bit             dwr_valid;\n" ++
  "    bit [31:0]      wr_data_out;\n" ++
  "\n" ++
  "    wire [15:0]     local_read_addr;\n" ++
  "    wire [15:0]     local_write_addr;\n" ++
  "\n" ++
  "    assign local_read_addr = (\x7bdrd_req_addr[31:24], drd_req_addr[23:16],\n" ++
  "                                drd_req_addr[15:8], drd_req_addr[7:0]\x7d -\n" ++
  "                                (base_address_register & ~32\x27hFFF)) & 20\x27hFFFFF;\n" ++
  "\n" ++
  "    assign local_write_addr = (\x7bdwr_addr[31:24], dwr_addr[23:16],\n" ++
  "                                dwr_addr[15:8], dwr_addr[7:0]\x7d -\n" ++
  "                                (base_address_register & ~32\x27hFFF)) & 20\x27hFFFFF;\n" ++
  "\n\n"

/-- Source `StaticCodeGenerator.generate_state_machine_start`. -/
def stateMachineStartText : String :=
  "    always_ff @(posedge clk) begin\n" ++
  "        if (rst) begin\n" ++
  "            rd_rsp_valid <= 1\x27b0;\n"

/-- Source `StaticCodeGenerator.generate_state_machine_end`. -/
def stateMachineEndText : String :=
  "    end else begin\n" ++
  "        drd_req_ctx     <= rd_req_ctx;\n" ++
  "        drd_req_valid   <= rd_req_valid;\n" ++
  "        dwr_valid       <= wr_valid;\n" ++
  "        drd_req_addr    <= rd_req_addr;\n" ++
  "        rd_rsp_ctx      <= drd_req_ctx;\n" ++
  "        rd_rsp_valid    <= drd_req_valid;\n" ++
  "        dwr_addr        <= wr_addr;\n" ++
  "        dwr_data        <= wr_data;\n"

/-! ### mmio/application/verilog/verilog_builder_orchestrator.py -/

/-- Source `VerilogBuilderOrchestrator._validate_verilog_data` (the
always-truthy `self.verilog_data` check is omitted). -/
def validateVerilogData (t : Tracker) (bar : Nat) : Bool :=
  !(addressesFor t.allInstances bar).isEmpty && !(getBarAddressBitWidths t bar).isEmpty

/-- Source `VerilogBuilderOrchestrator._get_operation_value`: anything but
`"read"` (including `None`) selects the write value. -/
def getOperationValue (operation : Option String) (readValue writeValue : String) : String :=
  if operation = some "read" then readValue else writeValue

/-- Source `VerilogBuilderOrchestrator.build_verilog`: dispatch one
fragment for one BAR.  Each call constructs a fresh generator instance, so
the fragment is a pure function of the registry. -/
def buildFragment (t : Tracker) (moduleHeader : String) (operation : Option String)
    (bar : Nat) (fieldType : String) : String :=
  if ¬ validateVerilogData t bar then ""
  else if fieldType = "header" then generateModuleHeader moduleHeader bar
  else if fieldType = "state_machine_start" then stateMachineStartText
  else if fieldType = "state_machine_end" then stateMachineEndText
  else if fieldType = "rom" then
    getOperationValue operation (generateReadRoms t bar) (generateWriteRoms t bar)
  else if fieldType = "rom_init" then
    if operation = some "read" then initializeReadRoms t.allInstances bar
    else initializeWriteRoms t.allInstances bar
  else if fieldType = "counter" then
    getOperationValue operation (generateReadCounters t.allInstances bar)
      (generateWriteCounters t.allInstances bar)
  else if fieldType = "reset_counter" then
    if operation = some "read" then resetReadCounters t.allInstances bar
    else resetWriteCounters t.allInstances bar
  else if fieldType = "addr_check" then
    getOperationValue operation (generateReadAddressCheck t.allInstances bar)
      (generateWriteAddressCheck t.allInstances bar)
  else if fieldType = "logic" then
    getOperationValue operation (generateReadLogic t bar) (generateWriteLogic t bar)
  else ""

/-! ### mmio/application/cli/coordinator/modular_orchestrator.py -/

/-- Source `CLIOptions` (mmio/config/cli_config.py). -/
structure CLIOptions where
  barSelection : Option (List Nat)
  operationFilter : String
  includeAddressChecks : Bool
  includeCounters : Bool
  includeDefaultValues : Bool
  includeLogic : Bool
  includeStateMachines : Bool
  initRoms : Bool
deriving DecidableEq

/-- The source's default `CLIOptions()`. -/
def defaultCLIOptions : CLIOptions :=
  ⟨none, "B", true, true, true, true, true, true⟩

/-- Source `ModularOrchestrator._append_code_block`. -/
def appendCodeBlock (lines : List String) (code : String) : List String :=
  if strNonBlank code then lines ++ [code, ""] else lines

/-- The read/write pair of `_append_code_block` calls made by each
`_generate_*_structures` helper. -/
def rwBlocks (gr gw : Bool) (readCode writeCode : String) : List String :=
  (if gr then appendCodeBlock [] readCode else []) ++
  (if gw then appendCodeBlock [] writeCode else [])

/-- Source `_generate_headers` plus `_generate_bar_structures` for one BAR
already known to be a key of `processed_data`. -/
def barContribution (t : Tracker) (mh : String) (opts : CLIOptions)
    (gr gw : Bool) (bar : Nat) : List String :=
  [buildFragment t mh (some "read") bar "header", ""] ++
  rwBlocks gr gw (buildFragment t mh (some "read") bar "rom")
    (buildFragment t mh (some "write") bar "rom") ++
  (if opts.includeCounters then
    rwBlocks gr gw (buildFragment t mh (some "read") bar "counter")
      (buildFragment t mh (some "write") bar "counter") else []) ++
  (if opts.includeAddressChecks then
    rwBlocks gr gw (buildFragment t mh (some "read") bar "addr_check")
      (buildFragment t mh (some "write") bar "addr_check") else []) ++
  (if opts.includeStateMachines then
    [buildFragment t mh none bar "state_machine_start", ""] else []) ++
  (if opts.includeCounters then
    rwBlocks gr gw (buildFragment t mh (some "read") bar "reset_counter")
      (buildFragment t mh (some "write") bar "reset_counter") else []) ++
  (if opts.initRoms then
    rwBlocks gr gw (buildFragment t mh (some "read") bar "rom_init")
      (buildFragment t mh (some "write") bar "rom_init") else []) ++
  (if opts.includeStateMachines then
    [buildFragment t mh none bar "state_machine_end", ""] else []) ++
  (if opts.includeLogic then
    rwBlocks gr gw (buildFragment t mh (some "read") bar "logic")
      (buildFragment t mh (some "write") bar "logic") else [])

/-- Source `while bar_lines and not bar_lines[-1].strip(): bar_lines.pop()`. -/
def popTrailingBlanks (l : List String) : List String :=
  (l.reverse.dropWhile (fun s => !strNonBlank s)).reverse

/-- Source `_get_operation_flags`. -/
def generateReadFlag (opts : CLIOptions) : Bool :=
  opts.operationFilter == "R" || opts.operationFilter == "B"

/-- Source `_get_operation_flags` (write side). -/
def generateWriteFlag (opts : CLIOptions) : Bool :=
  opts.operationFilter == "W" || opts.operationFilter == "B"

/-- The per-BAR loop of `ModularOrchestrator.build_verilog`: bars missing
from `processed_data` are skipped; otherwise the module lines are closed
with `endmodule` and a blank separator follows every non-final BAR. -/
def buildLines (t : Tracker) (mh : String) (opts : CLIOptions)
    (pd : List (Nat × List VData)) (bars : List Nat) : List String :=
  let gr := generateReadFlag opts
  let gw := generateWriteFlag opts
  List.flatten (bars.map (fun bar =>
    if dMem pd bar then
      let barLines := barContribution t mh opts gr gw bar
      if barLines ≠ [] then
        popTrailingBlanks barLines ++ ["endmodule\n"] ++
        (if bars.getLast? = some bar then [] else [""])
      else []
    else []))

/-- Source final join: blank lines are dropped before joining with `\n`. -/
def joinOutput (lines : List String) : String :=
  String.intercalate "\n" (lines.filter strNonBlank)

/-- Source `ModularOrchestrator.build_verilog`. -/
def buildVerilogOutput (t : Tracker) (mh : String) (opts : CLIOptions)
    (pd : List (Nat × List VData)) : String :=
  if pd.all (fun p => p.2.isEmpty) then ""
  else
    let bars := match opts.barSelection with
      | some l => if l = [] then dKeys pd else l
      | none => dKeys pd
    joinOutput (buildLines t mh opts pd bars)

/-! ### Full pipeline (InputOrchestrator.execute + build step) -/

/-- One loop iteration of `InputOrchestrator.execute`: records whose
`from_dict` raises are dropped; successes are ingested into the
process-wide registry and appended to this run's `processed_data`. -/
def inputStep (acc : Tracker × List (Nat × List VData)) (r : PRecord) :
    Tracker × List (Nat × List VData) :=
  match fromDict r with
  | none => acc
  | some v => (trackerIngest acc.1 v, dInsert acc.2 v.bar (dGet acc.2 v.bar [] ++ [v]))

/-- Parse and ingest a trace text starting from a given registry state
(the registry is process-wide and persists across runs; `processed_data`
is fresh per run). -/
def runInput (t : Tracker) (content : String) : Tracker × List (Nat × List VData) :=
  (parseContent content).foldl inputStep (t, [])

/-- One full parse→aggregate→emit run, returning the registry left behind
and the generated output. -/
def pipelineRun (t : Tracker) (content : String) (opts : CLIOptions) (mh : String) :
    Tracker × String :=
  let (t', pd) := runInput t content
  (t', buildVerilogOutput t' mh opts pd)

/-- Does the registry hold any observation for a BAR? -/
def regHasData (t : Tracker) (bar : Nat) : Bool :=
  !(addressesFor t.allInstances bar).isEmpty

/-! ### Association-list lemmas -/

theorem dGet_dInsert_self [DecidableEq α] (d : List (α × β)) (k : α) (v : β) (dv : β) :
    dGet (dInsert d k v) k dv = v := by
  induction d with
  | nil => simp [dInsert, dGet]
  | cons p rest ih =>
      obtain ⟨k', v'⟩ := p
      by_cases h : k' = k
      · simp [dInsert, dGet, h]
      · simp [dInsert, dGet, h, ih]

theorem dGet_dInsert_ne [DecidableEq α] (d : List (α × β)) (k k' : α) (v : β) (dv : β)
    (h : k' ≠ k) : dGet (dInsert d k v) k' dv = dGet d k' dv := by
  induction d with
  | nil =>
      simp only [dInsert, dGet]
      rw [if_neg (fun hh : k = k' => h hh.symm)]
  | cons p rest ih =>
      obtain ⟨k₀, v₀⟩ := p
      by_cases h₀ : k₀ = k
      · subst h₀
        simp only [dInsert, if_pos rfl, dGet]
        rw [if_neg (fun hh : k₀ = k' => h hh.symm), if_neg (fun hh : k₀ = k' => h hh.symm)]
      · simp only [dInsert, if_neg h₀, dGet]
        by_cases h₁ : k₀ = k'
        · rw [if_pos h₁, if_pos h₁]
        · rw [if_neg h₁, if_neg h₁, ih]

theorem dFind_dInsert_self [DecidableEq α] (d : List (α × β)) (k : α) (v : β) :
    dFind (dInsert d k v) k = some v := by
  induction d with
  | nil => simp [dInsert, dFind]
  | cons p rest ih =>
      obtain ⟨k', v'⟩ := p
      by_cases h : k' = k
      · simp [dInsert, dFind, h]
      · simp [dInsert, dFind, h, ih]

theorem dFind_dInsert_ne [DecidableEq α] (d : List (α × β)) (k k' : α) (v : β)
    (h : k' ≠ k) : dFind (dInsert d k v) k' = dFind d k' := by
  induction d with
  | nil =>
      simp only [dInsert, dFind]
      rw [if_neg (fun hh : k = k' => h hh.symm)]
  | cons p rest ih =>
      obtain ⟨k₀, v₀⟩ := p
      by_cases h₀ : k₀ = k
      · subst h₀
        simp only [dInsert, if_pos rfl, dFind]
        rw [if_neg (fun hh : k₀ = k' => h hh.symm), if_neg (fun hh : k₀ = k' => h hh.symm)]
      · simp only [dInsert, if_neg h₀, dFind]
        by_cases h₁ : k₀ = k'
        · rw [if_pos h₁, if_pos h₁]
        · rw [if_neg h₁, if_neg h₁, ih]

theorem dGet_of_not_mem [DecidableEq α] (d : List (α × β)) (k : α) (dv : β)
    (h : dMem d k = false) : dGet d k dv = dv := by
  induction d with
  | nil => simp [dGet]
  | cons p rest ih =>
      obtain ⟨k', v'⟩ := p
      simp only [dMem, dKeys, List.map_cons, List.contains_cons, Bool.or_eq_false_iff] at h
      have hne : k' ≠ k := by
        intro hh
        subst hh
        simp at h
      simp only [dGet, if_neg hne]
      exact ih (by simpa [dMem, dKeys] using h.2)

/-! ### Sorting lemmas -/

theorem insertSorted_perm (s : String) (l : List String) :
    (insertSorted s l).Perm (s :: l) := by
  induction l with
  | nil => simp [insertSorted]
  | cons t ts ih =>
      by_cases h : strLeB s t
      · simp [insertSorted, h]
      · simp only [insertSorted, if_neg h]
        exact ((ih.cons t).trans (List.Perm.swap s t ts))

theorem sortStrings_perm (l : List String) : (sortStrings l).Perm l := by
  induction l with
  | nil => simp [sortStrings]
  | cons s ss ih =>
      exact (insertSorted_perm s (sortStrings ss)).trans (ih.cons s)

theorem getUniqueSortedAddresses_nodup (l : List String) :
    (getUniqueSortedAddresses l).Nodup :=
  ((sortStrings_perm l.dedup).nodup_iff).2 l.nodup_dedup

theorem mem_getUniqueSortedAddresses (l : List String) (a : String) :
    a ∈ getUniqueSortedAddresses l ↔ a ∈ l := by
  rw [getUniqueSortedAddresses, (sortStrings_perm l.dedup).mem_iff, List.mem_dedup]

/-! ### Hex-rendering length lemmas -/

theorem hexAux_length_le (emit : Nat → Char) :
    ∀ (fuel n k : Nat), n < 16 ^ k → (hexAux emit fuel n).length ≤ k := by
  intro fuel
  induction fuel with
  | zero => intro n k _; simp [hexAux]
  | succ f ih =>
      intro n k hk
      by_cases h0 : n = 0
      · simp [hexAux, h0]
      · match k with
        | 0 => exact absurd (Nat.lt_one_iff.1 (by simpa using hk)) h0
        | k + 1 =>
            have hdiv : n / 16 < 16 ^ k := by
              rw [Nat.div_lt_iff_lt_mul (by norm_num : 0 < 16)]
              calc n < 16 ^ (k + 1) := hk
                _ = 16 ^ k * 16 := by ring
            simp only [hexAux, if_neg h0, List.length_append, List.length_cons,
              List.length_nil]
            have := ih (n / 16) k hdiv
            omega

theorem hex8Lower_length (n : Nat) (h : n < 4294967296) : (hex8Lower n).length = 8 := by
  have hle : (hexAux hexDigitCharL n n).length ≤ 8 :=
    hexAux_length_le hexDigitCharL n n 8 (by norm_num at h ⊢; exact h)
  simp only [hex8Lower, padHex, List.length_append, List.length_replicate]
  omega

/-! ### C1 — byte-lane alignment -/

/-- The sixteen hexadecimal digits, in both letter cases (order
irrelevant: the list is only used for membership). -/
def hexDigitChars : List Char :=
  ['0','a','1','b','2','c','3','d','4','e','5','f',
   '6','A','7','B','8','C','9','D','E','F']

/-- Claim-side description of the base digit of a hex digit's 4-wide group
(0 for digits 0–3, 4 for 4–7, 8 for 8–b, c for c–f). -/
def baseDigitChar (d : Char) : Char :=
  let v := hexCharVal d.toLower
  if v < 4 then '0' else if v < 8 then '4' else if v < 12 then '8' else 'c'

theorem lastCharToShiftAmount_concat (p : List Char) (d : Char) (hd : d ∈ hexDigitChars) :
    lastCharToShiftAmount (p ++ [d]) d =
      [(p ++ [baseDigitChar d], hexCharVal d.toLower % 4 * 8)] := by
  fin_cases hd <;>
    simp [lastCharToShiftAmount, baseDigitChar, hexCharVal, List.dropLast_concat]

/-- C1: for every raw address `0x…d` whose last hexadecimal digit is `d`
and every raw value parsing to `v`, the aligner returns the
prefix-stripped address with its last digit replaced by the base digit of
`d`'s group (0/4/8/c) together with `(v << (d mod 4)*8) & 0xFFFFFFFF`
rendered as exactly 8 zero-padded hex digits. -/
theorem c1_alignment (p v : List Char) (d : Char) (n : Nat)
    (hd : d ∈ hexDigitChars) (hv : pyIntHexL v = some n) :
    alignAddressAndValue ('0' :: 'x' :: (p ++ [d])) v =
      some (p ++ [baseDigitChar d],
        hex8Lower ((n <<< (hexCharVal d.toLower % 4 * 8)) % 4294967296)) ∧
    (hex8Lower ((n <<< (hexCharVal d.toLower % 4 * 8)) % 4294967296)).length = 8 := by
  have hlast : ('0' :: 'x' :: (p ++ [d])).getLast? = some d := by
    rw [show '0' :: 'x' :: (p ++ [d]) = ('0' :: 'x' :: p) ++ [d] by simp]
    exact List.getLast?_concat _
  refine ⟨?_, hex8Lower_length _ (Nat.mod_lt _ (by norm_num))⟩
  unfold alignAddressAndValue
  rw [hlast]
  simp only [hv]
  rw [show List.drop 2 ('0' :: 'x' :: (p ++ [d])) = p ++ [d] from rfl,
      lastCharToShiftAmount_concat p d hd]

/-- C1 witness: aligning value `0x7a` at address `0xf70003f1` shifts by 8
bits and replaces the last digit by `0`. -/
theorem c1_witness :
    '1' ∈ hexDigitChars ∧ pyIntHexL ("0x7a".data) = some 122 ∧
    alignAddressAndValue ('0' :: 'x' :: ("f70003f".data ++ ['1'])) ("0x7a".data) =
      some ("f70003f".data ++ [baseDigitChar '1'],
        hex8Lower ((122 <<< (hexCharVal '1'.toLower % 4 * 8)) % 4294967296)) := by
  refine ⟨by decide, by decide, ?_⟩
  exact (c1_alignment ("f70003f".data) ("0x7a".data) '1' 122 (by decide) (by decide)).1

/-! ### C6 — empty input -/

/-- C6: `parse_content` on empty or whitespace-only input returns a normal
empty result instead of raising the structural error its own docstring
documents (`Raises: FileAccessError: If content is empty`). -/
theorem c6_empty_input_returns_normally :
    parseContent "" = [] ∧ parseContent "   \n\t " = [] := by decide

/-! ### Registry fold projections -/

theorem foldl_trackerIngest_allInstances (ops : List VData) (t : Tracker) :
    (ops.foldl trackerIngest t).allInstances = t.allInstances ++ ops := by
  induction ops generalizing t with
  | nil => simp
  | cons v rest ih => simp [trackerIngest, ih]

theorem foldl_trackerIngest_defaultValues (ops : List VData) (t : Tracker) :
    (ops.foldl trackerIngest t).defaultValues =
      ops.foldl (fun d v => updateDefaultValues d v.bar v.operation v.value)
        t.defaultValues := by
  induction ops generalizing t with
  | nil => rfl
  | cons v rest ih => simp [trackerIngest, ih]

theorem foldl_trackerIngest_addressBitWidths (ops : List VData) (t : Tracker) :
    (ops.foldl trackerIngest t).addressBitWidths =
      ops.foldl (fun d v => updateAddressBitWidth d v.address v.value)
        t.addressBitWidths := by
  induction ops generalizing t with
  | nil => rfl
  | cons v rest ih => simp [trackerIngest, ih]

/-! ### C2 — default derivation -/

/-- The `("00000000", "00000000")` pair used as the absent-BAR default. -/
def defPair : String × String := ("00000000", "00000000")

/-- Slot overwrite performed by one `update_default_values` call. -/
def updSlot (p : String × String) (v : VData) : String × String :=
  if v.operation = "R" then (v.value, p.2) else (p.1, v.value)

/-- Cumulative effect of a sequence of slot overwrites. -/
def applyOps (p : String × String) (l : List VData) : String × String :=
  l.foldl updSlot p

theorem updateDefaultValues_get_self (d : List (Nat × (String × String))) (b : Nat)
    (v : VData) :
    dGet (updateDefaultValues d b v.operation v.value) b defPair =
      updSlot (dGet d b defPair) v := by
  unfold updateDefaultValues updSlot
  by_cases hm : dMem d b = true
  · simp only [hm, if_true]
    by_cases hop : v.operation = "R" <;> simp [hop, dGet_dInsert_self, defPair]
  · simp only [Bool.not_eq_true] at hm
    simp only [hm, Bool.false_eq_true, if_false]
    rw [dGet_of_not_mem d b defPair hm]
    by_cases hop : v.operation = "R" <;>
      simp [hop, dGet_dInsert_self, defPair]

theorem updateDefaultValues_get_ne (d : List (Nat × (String × String))) (b b' : Nat)
    (op val : String) (h : b' ≠ b) :
    dGet (updateDefaultValues d b op val) b' defPair = dGet d b' defPair := by
  unfold updateDefaultValues
  by_cases hm : dMem d b = true
  · simp only [hm, if_true]
    by_cases hop : op = "R" <;> simp [hop, dGet_dInsert_ne _ _ _ _ _ h]
  · simp only [Bool.not_eq_true] at hm
    simp only [hm, Bool.false_eq_true, if_false]
    by_cases hop : op = "R" <;>
      simp [hop, dGet_dInsert_ne _ _ _ _ _ h]

theorem foldDefaults_get (ops : List VData) (d : List (Nat × (String × String)))
    (b : Nat) :
    dGet (ops.foldl (fun d v => updateDefaultValues d v.bar v.operation v.value) d)
        b defPair =
      applyOps (dGet d b defPair) (ops.filter (fun v => v.bar == b)) := by
  induction ops generalizing d with
  | nil => rfl
  | cons v rest ih =>
      by_cases hb : v.bar = b
      · subst hb
        simp only [List.foldl_cons, List.filter_cons, beq_self_eq_true, if_true]
        rw [ih]
        simp [applyOps, updateDefaultValues_get_self]
      · have hbb : (v.bar == b) = false := by simp [hb]
        simp only [List.foldl_cons, List.filter_cons, hbb, Bool.false_eq_true, if_false]
        rw [ih, updateDefaultValues_get_ne _ _ _ _ _ (fun hh => hb hh.symm)]

theorem getLast?_cons_getD (a : α) (l : List α) (b : α) :
    ((a :: l).getLast?).getD b = (l.getLast?).getD a := by
  match l with
  | [] => rfl
  | c :: cs => rw [List.getLast?_cons_cons]; cases h : (c :: cs).getLast? with
    | none => exact absurd h (by simp)
    | some x => rfl

theorem applyOps_eq_last (l : List VData) (p : String × String) :
    applyOps p l =
      ((((l.filter (fun v => v.operation == "R")).map (·.value)).getLast?).getD p.1,
       (((l.filter (fun v => !(v.operation == "R"))).map (·.value)).getLast?).getD p.2) := by
  induction l generalizing p with
  | nil => simp [applyOps]
  | cons v rest ih =>
      by_cases hop : v.operation = "R"
      · have hb : (v.operation == "R") = true := by simp [hop]
        simp only [applyOps, List.foldl_cons, List.filter_cons, hb, Bool.not_true,
          Bool.false_eq_true, if_false, if_true, List.map_cons]
        rw [show List.foldl updSlot (updSlot p v) rest = applyOps (updSlot p v) rest from rfl,
          ih]
        rw [getLast?_cons_getD]
        simp [updSlot, hop]
      · have hb : (v.operation == "R") = false := by simp [hop]
        simp only [applyOps, List.foldl_cons, List.filter_cons, hb, Bool.not_false,
          Bool.false_eq_true, if_false, if_true, List.map_cons]
        rw [show List.foldl updSlot (updSlot p v) rest = applyOps (updSlot p v) rest from rfl,
          ih]
        rw [getLast?_cons_getD]
        simp [updSlot, hop]

/-- C2 (amended): the registry default read (resp. write) value for a BAR
equals the value of the LAST R (resp. W) operation ingested for that BAR
(\"00000000\" while none has been seen); each later operation of that
direction overwrites it. -/
theorem c2_default_is_last_not_first (ops : List VData) (bar : Nat)
    (h : ∀ v ∈ ops, v.operation = "R" ∨ v.operation = "W") :
    getDefaultValues (trackerOfOps ops) bar =
      ((((ops.filter (fun v => v.bar == bar && v.operation == "R")).map
          (·.value)).getLast?).getD "00000000",
       (((ops.filter (fun v => v.bar == bar && v.operation == "W")).map
          (·.value)).getLast?).getD "00000000") := by
  unfold getDefaultValues trackerOfOps
  rw [show ("00000000", "00000000") = defPair from rfl,
    foldl_trackerIngest_defaultValues, foldDefaults_get, applyOps_eq_last]
  have hfR : ((ops.filter (fun v => v.bar == bar)).filter (fun v => v.operation == "R")) =
      ops.filter (fun v => v.bar == bar && v.operation == "R") := by
    rw [List.filter_filter]
    apply List.filter_congr
    intro v _
    rw [Bool.and_comm]
  have hfW : ((ops.filter (fun v => v.bar == bar)).filter (fun v => !(v.operation == "R"))) =
      ops.filter (fun v => v.bar == bar && v.operation == "W") := by
    rw [List.filter_filter]
    apply List.filter_congr
    intro v hv
    rcases h v hv with hR | hW
    · simp [hR]
    · simp [hW, Bool.and_comm]
  rw [hfR, hfW]
  rfl

/-- Operation sequence showing that a later read overwrites the default. -/
def c2ops : List VData :=
  [⟨"R", 0, "00100", "00000001", 0⟩, ⟨"R", 0, "00100", "00000002", 0⟩]

/-- C2 counterexample: the first R operation for BAR 0 carries value
`00000001`, yet the stored default read value is `00000002` — the
first-seen value does not win. -/
theorem c2_counterexample :
    ((c2ops.filter (fun v => v.bar == 0 && v.operation == "R")).map
      (·.value)).head? = some "00000001" ∧
    getDefaultValues (trackerOfOps c2ops) 0 = ("00000002", "00000000") ∧
    ("00000002" : String) ≠ "00000001" := by decide

/-- C2 witness: the amended theorem applied to the concrete sequence. -/
theorem c2_witness :
    getDefaultValues (trackerOfOps c2ops) 0 =
      ((((c2ops.filter (fun v => v.bar == 0 && v.operation == "R")).map
          (·.value)).getLast?).getD "00000000",
       (((c2ops.filter (fun v => v.bar == 0 && v.operation == "W")).map
          (·.value)).getLast?).getD "00000000") :=
  c2_default_is_last_not_first c2ops 0 (by decide)

/-! ### C3 — counter emission and width -/

/-- Sequence with one BAR-0 read at `00100` and one BAR-1 read at the same
address. -/
def c3ops : List VData :=
  [⟨"R", 0, "00100", "00000005", 0⟩, ⟨"R", 1, "00100", "00000006", 0⟩]

/-- C3 counterexample: address `00100` has exactly one observed read value
for BAR 0 (`k = 1`), yet `generate_read_counters` for BAR 0 still emits a
counter declaration for it — and with width 2 = bitLength of the
cross-BAR count, not of the BAR-local count. -/
theorem c3_counterexample :
    (c3ops.filter (fun v =>
      v.bar == 0 && v.operation == "R" && v.address == "00100")).length = 1 ∧
    generateReadCounters c3ops 0 = "    bit [1:0] R_C_00100;\n" ∧
    generateReadCounters c3ops 0 ≠ "" := by decide

/-- C3 (amended): for every BAR, the counter generator emits exactly one
declaration per unique address observed for that BAR and direction —
including addresses observed once — with width `max 1 (bitLength k)`
where `k` counts that address's operations of that direction across ALL
BARs. -/
theorem c3_counter_emission (ops : List VData) (bar : Nat) :
    generateReadCounters ops bar =
      (if opAddressesFor ops bar "R" = [] then ""
       else String.join ((getUniqueSortedAddresses (opAddressesFor ops bar "R")).map
         (fun addr =>
           let k := (ops.filter
             (fun v => v.address == addr && v.operation == "R")).length
           let width := max 1 (pyBitLength k)
           s!"    bit [{width - 1}:0] R_C_{addr};\n"))) ∧
    (getUniqueSortedAddresses (opAddressesFor ops bar "R")).Nodup ∧
    (∀ a, a ∈ getUniqueSortedAddresses (opAddressesFor ops bar "R") ↔
      a ∈ opAddressesFor ops bar "R") :=
  ⟨rfl, getUniqueSortedAddresses_nodup _, fun a => mem_getUniqueSortedAddresses _ a⟩

/-! ### C5 — ROM initialization order -/

/-- Trace-ordered values observed at one (bar, direction, address) tuple. -/
def occVals (ops : List VData) (bar : Nat) (operation a : String) : List String :=
  (ops.filter (fun v =>
    (v.bar == bar && v.operation == operation) && v.address == a)).map (·.value)

/-- How one address's accumulated list combines with later occurrences. -/
def combineOpt : Option (List String) → List String → Option (List String)
  | some xs, vs => some (xs ++ vs)
  | none, [] => none
  | none, v :: vs => some (v :: vs)

theorem dGet_eq_dFind_getD [DecidableEq α] (d : List (α × β)) (k : α) (dv : β) :
    dGet d k dv = (dFind d k).getD dv := by
  induction d with
  | nil => rfl
  | cons p rest ih =>
      obtain ⟨k', v'⟩ := p
      by_cases h : k' = k
      · simp [dGet, dFind, h]
      · simp [dGet, dFind, h, ih]

theorem occVals_cons_match (v : VData) (rest : List VData) (bar : Nat)
    (operation : String)
    (hm : (v.bar == bar && v.operation == operation) = true) :
    occVals (v :: rest) bar operation v.address =
      v.value :: occVals rest bar operation v.address := by
  simp [occVals, List.filter_cons, hm]

theorem occVals_cons_skip (v : VData) (rest : List VData) (bar : Nat)
    (operation a : String)
    (h : ((v.bar == bar && v.operation == operation) && v.address == a) = false) :
    occVals (v :: rest) bar operation a = occVals rest bar operation a := by
  simp [occVals, List.filter_cons, h]

theorem avpFold_find (ops : List VData) (d : List (String × List String))
    (bar : Nat) (operation a : String) :
    dFind (ops.foldl (fun d v =>
        if v.bar == bar && v.operation == operation then
          dInsert d v.address (dGet d v.address [] ++ [v.value])
        else d) d) a =
      combineOpt (dFind d a) (occVals ops bar operation a) := by
  induction ops generalizing d with
  | nil =>
      cases h : dFind d a <;> simp [occVals, combineOpt, h]
  | cons v rest ih =>
      by_cases hmatch : (v.bar == bar && v.operation == operation) = true
      · by_cases ha : v.address = a
        · subst ha
          rw [occVals_cons_match v rest bar operation hmatch]
          simp only [List.foldl_cons, hmatch, if_true]
          rw [ih, dFind_dInsert_self, dGet_eq_dFind_getD]
          cases h : dFind d v.address with
          | none => simp [combineOpt]
          | some xs => simp [combineOpt]
        · rw [occVals_cons_skip v rest bar operation a (by simp [ha])]
          simp only [List.foldl_cons, hmatch, if_true]
          rw [ih, dFind_dInsert_ne _ _ _ _ (fun hh => ha hh.symm)]
      · have hb : ((v.bar == bar && v.operation == operation) && v.address == a) = false := by
          simp only [Bool.not_eq_true] at hmatch
          simp [hmatch]
        rw [occVals_cons_skip v rest bar operation a hb]
        simp only [List.foldl_cons, hmatch, Bool.false_eq_true, if_false]
        exact ih d

theorem romInitAssignLines_get? (nm : String) (values : List String) (i : Nat) :
    (romInitAssignLines nm values).get? i =
      (values.get? i).map (romInitLine nm i) := by
  simp only [romInitAssignLines, List.get?_eq_getElem?, List.getElem?_map,
    List.getElem?_enum]
  cases h : values[i]? with
  | none => simp [h]
  | some v => simp [h]

/-- C5: the value list recorded for address `a` (the list enumerated into
ROM initialization assignments) is exactly the trace-ordered,
duplicate-preserving sequence of `a`'s occurrences for that BAR and
direction, and assignment index `i` holds the `(i+1)`-th occurrence. -/
theorem c5_order_preservation (ops : List VData) (bar : Nat) (a : String)
    (vs : List String)
    (h : dFind (getAddressValuePairs ops bar "R") a = some vs) :
    vs = occVals ops bar "R" a ∧
    (∀ i : Nat, (romInitAssignLines ("R_" ++ a) vs).get? i =
      ((occVals ops bar "R" a).get? i).map (romInitLine ("R_" ++ a) i)) := by
  have h1 : vs = occVals ops bar "R" a := by
    have hc := avpFold_find ops [] bar "R" a
    rw [show (ops.foldl (fun d v =>
        if v.bar == bar && v.operation == "R" then
          dInsert d v.address (dGet d v.address [] ++ [v.value])
        else d) []) = getAddressValuePairs ops bar "R" from rfl] at hc
    rw [h] at hc
    cases hocc : occVals ops bar "R" a with
    | nil => rw [hocc] at hc; exact absurd hc.symm (by simp [dFind, combineOpt])
    | cons x xs =>
        rw [hocc] at hc
        exact (by simpa [dFind, combineOpt] using hc : vs = x :: xs)
  subst h1
  exact ⟨rfl, fun i => romInitAssignLines_get? _ _ i⟩

/-- Sequence with a duplicated value at address `00100`. -/
def c5ops : List VData :=
  [⟨"R", 0, "00100", "00000005", 0⟩, ⟨"R", 0, "00200", "11111111", 0⟩,
   ⟨"R", 0, "00100", "00000009", 0⟩, ⟨"R", 0, "00100", "00000005", 0⟩]

/-- C5 witness: the theorem applied to a concrete duplicated sequence,
with the index property instantiated at the second assignment. -/
theorem c5_witness :
    ["00000005", "00000009", "00000005"] = occVals c5ops 0 "R" "00100" ∧
    (romInitAssignLines ("R_" ++ "00100")
        ["00000005", "00000009", "00000005"]).get? 1 =
      ((occVals c5ops 0 "R" "00100").get? 1).map (romInitLine ("R_" ++ "00100") 1) := by
  have h := c5_order_preservation c5ops 0 "00100"
    ["00000005", "00000009", "00000005"] (by decide)
  exact ⟨h.1, h.2 1⟩

/-! ### C10 — timestamp mangling -/

theorem splitChar_no_sep (sep : Char) (l : List Char) (h : sep ∉ l) :
    splitChar sep l = [l] := by
  induction l with
  | nil => rfl
  | cons c rest ih =>
      have hc : ¬ c = sep := fun hh => h (hh ▸ List.mem_cons_self c rest)
      have hr : sep ∉ rest := fun hh => h (List.mem_cons_of_mem c hh)
      simp only [splitChar, if_neg hc, ih hr, consFirst]

theorem splitChar_append_sep (sep : Char) (ip fp : List Char) (hip : sep ∉ ip) :
    splitChar sep (ip ++ sep :: fp) = ip :: splitChar sep fp := by
  induction ip with
  | nil => simp [splitChar]
  | cons c cs ih =>
      have hc : ¬ c = sep := fun hh => hip (hh ▸ List.mem_cons_self c cs)
      have hr : sep ∉ cs := fun hh => hip (List.mem_cons_of_mem c hh)
      rw [List.cons_append]
      simp only [splitChar, if_neg hc, ih hr, consFirst]

theorem decDigitsToNat_foldl_acc (l : List Char) :
    ∀ acc : Nat, l.foldl (fun acc c => 10 * acc + (c.toNat - 48)) acc =
      acc * 10 ^ l.length + decDigitsToNat l := by
  induction l with
  | nil => intro acc; simp [decDigitsToNat]
  | cons c cs ih =>
      intro acc
      have h1 := ih (10 * acc + (c.toNat - 48))
      have h2 := ih (10 * 0 + (c.toNat - 48))
      simp only [List.foldl_cons, decDigitsToNat, List.length_cons]
      rw [h1, h2]
      ring

theorem decDigitsToNat_cons (c : Char) (l : List Char) :
    decDigitsToNat (c :: l) =
      (c.toNat - 48) * 10 ^ l.length + decDigitsToNat l := by
  show (c :: l).foldl _ 0 = _
  rw [List.foldl_cons, decDigitsToNat_foldl_acc]
  norm_num

theorem decDigitsToNat_append (a b : List Char) :
    decDigitsToNat (a ++ b) =
      decDigitsToNat a * 10 ^ b.length + decDigitsToNat b := by
  show (a ++ b).foldl _ 0 = _
  rw [List.foldl_append, decDigitsToNat_foldl_acc]
  rfl

theorem decDigitsToNat_replicate_zero (n : Nat) :
    decDigitsToNat (List.replicate n '0') = 0 := by
  induction n with
  | zero => rfl
  | succ m ih =>
      show (List.replicate (m + 1) '0').foldl _ 0 = 0
      rw [List.replicate_succ, List.foldl_cons]
      simpa [decDigitsToNat] using ih

/-- C10: for every decimal rendering `ip.fp` of an ingested timestamp
(nonempty digit strings, at most six fractional digits), the stored
timestamp is not the seconds value but the integer formed by concatenating
the LAST character of the whole rendering with the fractional digits
right-padded with zeros to six places; renderings differing only in
high-order seconds digits therefore collide (e.g. 100.000001 and
200.000001 both store 1000001). -/
theorem c10_timestamp_mangling (ip fp : List Char)
    (hip : ip ≠ []) (hfp : fp ≠ [])
    (hipd : ∀ c ∈ ip, c.isDigit) (hfpd : ∀ c ∈ fp, c.isDigit)
    (hlen : fp.length ≤ 6) :
    normalizeTimestamp (ip ++ '.' :: fp) =
      some (decDigitsToNat (fp.getLast hfp :: ljustZero 6 fp)) ∧
    decDigitsToNat (fp.getLast hfp :: ljustZero 6 fp) =
      ((fp.getLast hfp).toNat - 48) * 10 ^ 6 +
        decDigitsToNat fp * 10 ^ (6 - fp.length) ∧
    normalizeTimestamp ("100.000001".data) = some 1000001 ∧
    normalizeTimestamp ("200.000001".data) = some 1000001 := by
  have hdotIp : '.' ∉ ip := fun hh => by simpa using hipd '.' hh
  have hdotFp : '.' ∉ fp := fun hh => by simpa using hfpd '.' hh
  have hcons : ('.' :: fp).getLast? = some (fp.getLast hfp) := by
    match fp, hfp with
    | f :: fs, _ =>
        rw [List.getLast?_cons_cons, List.getLast?_eq_getLast _ (by simp)]
  have hlast : (ip ++ '.' :: fp).getLast? = some (fp.getLast hfp) := by
    rw [List.getLast?_append, hcons]
    rfl
  have hsplit : (splitChar '.' (ip ++ '.' :: fp)).get? 1 = some fp := by
    rw [splitChar_append_sep '.' ip fp hdotIp, splitChar_no_sep '.' fp hdotFp]
    rfl
  have halldig : ((fp.getLast hfp :: ljustZero 6 fp).all Char.isDigit) = true := by
    rw [List.all_cons, Bool.and_eq_true]
    refine ⟨hfpd _ (List.getLast_mem hfp), ?_⟩
    rw [List.all_eq_true]
    intro c hc
    rcases List.mem_append.1
      (show c ∈ fp ++ List.replicate (6 - fp.length) '0' from hc) with h | h
    · exact hfpd c h
    · rw [List.eq_of_mem_replicate h]; decide
  have hmain : normalizeTimestamp (ip ++ '.' :: fp) =
      some (decDigitsToNat (fp.getLast hfp :: ljustZero 6 fp)) := by
    unfold normalizeTimestamp
    rw [hlast, hsplit]
    simp only [halldig, if_true]
  refine ⟨hmain, ?_, by decide, by decide⟩
  rw [decDigitsToNat_cons]
  have hlj : (ljustZero 6 fp).length = 6 := by
    simp only [ljustZero, List.length_append, List.length_replicate]
    omega
  rw [hlj]
  show _ = _ + decDigitsToNat fp * 10 ^ (6 - fp.length)
  rw [show ljustZero 6 fp = fp ++ List.replicate (6 - fp.length) '0' from rfl,
    decDigitsToNat_append, decDigitsToNat_replicate_zero, List.length_replicate]
  omega

/-- C10 witness: the rendering `100.000001` stores the integer 1000001. -/
theorem c10_witness :
    normalizeTimestamp ("100".data ++ '.' :: "000001".data) =
      some (decDigitsToNat (("000001".data).getLast (by decide) ::
        ljustZero 6 ("000001".data))) :=
  (c10_timestamp_mangling ("100".data) ("000001".data) (by decide) (by decide)
    (by decide) (by decide) (by decide)).1

/-! ### C7 — malformed-line tolerance -/

theorem parseLine_eq_none_of_bad (bad : List Char)
    (h : (pySplitWs bad).length ≠ 8 ∨
      (¬ isValidHex ((pySplitWs bad).getD 4 []) ∨
        ¬ isValidHex ((pySplitWs bad).getD 5 [])) ∨
      ((pySplitWs bad).getD 4 []).drop 2 = []) :
    parseLine bad = none := by
  unfold parseLine
  by_cases hval : (isValidLine bad) = true
  · rw [if_neg (by simp [hval])]
    rcases h with h1 | h2 | h3
    · rw [if_pos h1]
    · by_cases hlen : (pySplitWs bad).length ≠ 8
      · rw [if_pos hlen]
      · rw [if_neg hlen]
        by_cases haddr : (((pySplitWs bad).getD 4 []).drop 2).length < 1
        · rw [if_pos haddr]
        · rw [if_neg haddr]
          cases hbar : pyIntDecL ((pySplitWs bad).getD 3 []) with
          | none => simp [hbar]
          | some bar =>
              simp only [hbar]
              cases halign : alignAddressAndValue ((pySplitWs bad).getD 4 [])
                  ((pySplitWs bad).getD 5 []) with
              | none => simp [halign]
              | some pr =>
                  obtain ⟨aa, sv⟩ := pr
                  simp only [halign]
                  rw [if_pos (fun hand => h2.elim (fun ha => ha hand.1)
                    (fun hb => hb hand.2))]
    · by_cases hlen : (pySplitWs bad).length ≠ 8
      · rw [if_pos hlen]
      · rw [if_neg hlen]
        have hl : (((pySplitWs bad).getD 4 []).drop 2).length < 1 := by
          rw [h3]; simp
        rw [if_pos hl]
  · rw [if_pos (by simp [hval])]

theorem parseContentLine_eq_none_of_bad (bad : List Char)
    (h : (pySplitWs bad).length ≠ 8 ∨
      (¬ isValidHex ((pySplitWs bad).getD 4 []) ∨
        ¬ isValidHex ((pySplitWs bad).getD 5 [])) ∨
      ((pySplitWs bad).getD 4 []).drop 2 = []) :
    parseContentLine bad = none := by
  unfold parseContentLine
  by_cases hrw : (startsChar 'R' bad || startsChar 'W' bad) = true
  · rw [if_neg (by simp [hrw])]
    rw [parseLine_eq_none_of_bad bad h]
  · rw [if_pos (by simp [hrw])]

/-- C7: a line with a field count other than 8, a non-hex addr or value
field, or an empty address after the `0x` prefix is dropped without
raising (the embedded parser is total) and without affecting any other
line: the parse result equals that of the same line sequence with the bad
line absent. -/
theorem c7_malformed_line_tolerance (pre post : List (List Char)) (bad : List Char)
    (h : (pySplitWs bad).length ≠ 8 ∨
      (¬ isValidHex ((pySplitWs bad).getD 4 []) ∨
        ¬ isValidHex ((pySplitWs bad).getD 5 [])) ∨
      ((pySplitWs bad).getD 4 []).drop 2 = []) :
    (pre ++ bad :: post).filterMap parseContentLine =
      (pre ++ post).filterMap parseContentLine := by
  rw [List.filterMap_append, List.filterMap_append, List.filterMap_cons,
    parseContentLine_eq_none_of_bad bad h]

/-- C7 witness: a 4-field line between two valid lines is dropped and the
valid lines parse as if it were absent. -/
theorem c7_witness :
    (["R 1 100.5 0 0xf7000100 0x5 0x0 0".data] ++ "R 1 2 3".data ::
      ["W 2 100.6 0 0xf7000104 0x6 0x0 0".data]).filterMap parseContentLine =
    (["R 1 100.5 0 0xf7000100 0x5 0x0 0".data] ++
      ["W 2 100.6 0 0xf7000104 0x6 0x0 0".data]).filterMap parseContentLine :=
  c7_malformed_line_tolerance _ _ ("R 1 2 3".data) (Or.inl (by decide))

/-! ### C8 — read response logic -/

theorem strAppend_assoc (a b c : String) : a ++ b ++ c = a ++ (b ++ c) := by
  show String.mk ((a ++ b).data ++ c.data) = String.mk (a.data ++ (b ++ c).data)
  rw [show (a ++ b).data = a.data ++ b.data from rfl,
    show (b ++ c).data = b.data ++ c.data from rfl, List.append_assoc]

/-- Whenever a BAR has read observations, the emitted read-logic block ends
with an unconditional `rd_rsp_data <= 32'h<defaultRead>;` written AFTER
the `endcase`, inside the address-matched `if` block: under last-wins
nonblocking-assignment semantics this overrides the ROM selection. -/
theorem generateReadLogic_trailing_default (t : Tracker) (bar : Nat)
    (h : ¬ opAddressesFor t.allInstances bar "R" = []) :
    ∃ s : String, generateReadLogic t bar =
      s ++ ("                endcase\n" ++
        (s!"                rd_rsp_data <= 32\x27h{(getDefaultValues t bar).1};\n" ++
          "            end\n")) := by
  refine ⟨"            if (drd_req_valid && read_addr_check(local_read_addr)) begin\n" ++
    "                case(local_read_addr)\n" ++
    String.join ((sortStrings (opAddressesFor t.allInstances bar "R").dedup).map
      (fun addr =>
        let count := (t.allInstances.filter
          (fun v => v.address == addr && v.operation == "R")).length
        if count > 1 then
          let cw := pyBitLength count
          let cm := count - 1
          s!"                    16\x27h{addr}: begin\n" ++
          s!"                        R_C_{addr} <= (R_C_{addr} == {cw}\x27d{cm}) ? {cw}\x27d0 : R_C_{addr} + 1;\n" ++
          s!"                        rd_rsp_data <= R_{addr}[R_C_{addr}];\n" ++
          "                    end\n"
        else
          s!"                    16\x27h{addr}: rd_rsp_data <= R_{addr}[0];\n")) ++
    s!"                    default: rd_rsp_data <= 32\x27h{(getDefaultValues t bar).1};\n", ?_⟩
  unfold generateReadLogic
  rw [if_neg h]
  simp only [strAppend_assoc]

/-- Registry holding two BAR-0 reads at address `00100`. -/
def c8ops : List VData :=
  [⟨"R", 0, "00100", "00000005", 1000001⟩, ⟨"R", 0, "00100", "00000009", 1000002⟩]

set_option maxRecDepth 8000 in
/-- C8: the full read-logic fragment generated for the two-read registry.
The case arm selects the ROM entry and advances the counter modulo 2, but
the line following `endcase` assigns the default to `rd_rsp_data`
unconditionally inside the same guarded block, so the ROM selection is
not the effective assignment. -/
theorem c8_read_logic_overridden :
    generateReadLogic (trackerOfOps c8ops) 0 =
      "            if (drd_req_valid && read_addr_check(local_read_addr)) begin\n" ++
      "                case(local_read_addr)\n" ++
      "                    16\x27h00100: begin\n" ++
      "                        R_C_00100 <= (R_C_00100 == 2\x27d1) ? 2\x27d0 : R_C_00100 + 1;\n" ++
      "                        rd_rsp_data <= R_00100[R_C_00100];\n" ++
      "                    end\n" ++
      "                    default: rd_rsp_data <= 32\x27h00000009;\n" ++
      "                endcase\n" ++
      "                rd_rsp_data <= 32\x27h00000009;\n" ++
      "            end\n" := by
  decide

/-! ### C4 — determinism across runs -/

/-- The single-line trace used to exercise a same-process double run. -/
def c4Trace : String := "R 1 100.000001 0 0xf7000100 0x5 0x0 0"

/-- Options for a read-only run emitting ROM declarations and ROM init. -/
def c4Opts : CLIOptions := ⟨none, "R", false, false, false, false, false, true⟩

/-- First pipeline run in a fresh process. -/
def c4RunA : Tracker × String := pipelineRun emptyTracker c4Trace c4Opts "cool_bar_controller"

/-- Second pipeline run on the identical text in the same process: the
registry left by the first run is still populated. -/
def c4RunB : Tracker × String := pipelineRun c4RunA.1 c4Trace c4Opts "cool_bar_controller"

set_option maxRecDepth 200000 in
theorem c4RunA_output_length : c4RunA.2.length = 1427 := by decide

set_option maxRecDepth 200000 in
theorem c4RunB_output_length : c4RunB.2.length = 1467 := by decide

set_option maxRecDepth 20000 in
/-- C4 counterexample: re-running the full pipeline on the identical trace
text in the same process leaves a different registry (the operations are
ingested twice) and produces output that is not byte-identical to the
first run's. -/
theorem c4_counterexample : c4RunB.1 ≠ c4RunA.1 ∧ c4RunB.2 ≠ c4RunA.2 := by
  constructor
  · decide
  · intro h
    have h2 := congrArg String.length h
    rw [c4RunB_output_length, c4RunA_output_length] at h2
    exact absurd h2 (by decide)

theorem runInput_tracker (content : String) (t : Tracker) :
    (runInput t content).1 =
      ((parseContent content).filterMap fromDict).foldl trackerIngest t := by
  unfold runInput
  suffices h : ∀ (recs : List PRecord) (tr : Tracker) (pd : List (Nat × List VData)),
      (recs.foldl inputStep (tr, pd)).1 =
        (recs.filterMap fromDict).foldl trackerIngest tr from h _ t []
  intro recs
  induction recs with
  | nil => intro tr pd; rfl
  | cons r rest ih =>
      intro tr pd
      cases hr : fromDict r with
      | none => simp [inputStep, hr, List.filterMap_cons, ih]
      | some v => simp [inputStep, hr, List.filterMap_cons, ih]

/-- One step of the pointwise bit-width accumulation at a fixed address. -/
def maxWidthStep (a : String) (acc : Nat) (v : VData) : Nat :=
  if v.address = a then max (calculateBitWidth v.value) acc else acc

theorem foldWidths_get (vs : List VData) (d : List (String × Nat)) (a : String) :
    dGet (vs.foldl (fun d v => updateAddressBitWidth d v.address v.value) d) a 0 =
      vs.foldl (maxWidthStep a) (dGet d a 0) := by
  induction vs generalizing d with
  | nil => rfl
  | cons v rest ih =>
      simp only [List.foldl_cons]
      rw [ih]
      have hstep : dGet (updateAddressBitWidth d v.address v.value) a 0 =
          maxWidthStep a (dGet d a 0) v := by
        unfold updateAddressBitWidth maxWidthStep
        by_cases ha : v.address = a
        · subst ha; rw [dGet_dInsert_self, if_pos rfl]
        · rw [dGet_dInsert_ne _ _ _ _ _ (fun hh => ha hh.symm), if_neg ha]
      rw [hstep]

theorem foldl_maxWidthStep_max (vs : List VData) (a : String) (x : Nat) :
    vs.foldl (maxWidthStep a) x = max x (vs.foldl (maxWidthStep a) 0) := by
  induction vs generalizing x with
  | nil => simp
  | cons v rest ih =>
      simp only [List.foldl_cons]
      rw [ih (maxWidthStep a x v), ih (maxWidthStep a 0 v)]
      unfold maxWidthStep
      by_cases h : v.address = a <;> simp [h] <;> omega

theorem applyOps_idem (p : String × String) (s : List VData) :
    applyOps (applyOps p s) s = applyOps p s := by
  rw [applyOps_eq_last s p, applyOps_eq_last s]
  cases hr : (((s.filter (fun v => v.operation == "R")).map (·.value)).getLast?) <;>
    cases hw : (((s.filter (fun v => !(v.operation == "R"))).map (·.value)).getLast?) <;>
      simp [hr, hw]

/-- C4 (amended): the registry is process-wide, so a second run on the
identical text appends the operation stream again: `allOperations` after
run two is the stream twice, while every bit-width lookup and every
default lookup is unchanged (the accumulations are idempotent on a
replayed stream).  Byte-identical output is guaranteed only when each run
starts from a fresh registry — `pipelineRun` is a pure function of the
initial registry and the text. -/
theorem c4_second_run_appends (content : String) :
    (runInput emptyTracker content).1.allInstances =
      (parseContent content).filterMap fromDict ∧
    (runInput (runInput emptyTracker content).1 content).1.allInstances =
      ((parseContent content).filterMap fromDict) ++
        ((parseContent content).filterMap fromDict) ∧
    (∀ a, dGet (runInput (runInput emptyTracker content).1 content).1.addressBitWidths a 0 =
      dGet (runInput emptyTracker content).1.addressBitWidths a 0) ∧
    (∀ b, dGet (runInput (runInput emptyTracker content).1 content).1.defaultValues b defPair =
      dGet (runInput emptyTracker content).1.defaultValues b defPair) := by
  have t1 := runInput_tracker content emptyTracker
  have t2 := runInput_tracker content (runInput emptyTracker content).1
  refine ⟨?_, ?_, ?_, ?_⟩
  · rw [t1, foldl_trackerIngest_allInstances]
    rfl
  · rw [t2, foldl_trackerIngest_allInstances, t1, foldl_trackerIngest_allInstances]
    rfl
  · intro a
    rw [t2, t1, foldl_trackerIngest_addressBitWidths,
      foldl_trackerIngest_addressBitWidths, foldWidths_get, foldWidths_get,
      foldl_maxWidthStep_max]
    have hbase : dGet (emptyTracker.addressBitWidths) a 0 = 0 := rfl
    rw [hbase]
    rw [foldl_maxWidthStep_max _ _ 0]
    omega
  · intro b
    rw [t2, t1, foldl_trackerIngest_defaultValues,
      foldl_trackerIngest_defaultValues, foldDefaults_get, foldDefaults_get]
    exact applyOps_idem _ _

/-! ### C9 — no-data BARs are skipped -/

theorem filter_flatten (p : String → Bool) (l : List (List String)) :
    (l.flatten).filter p = (l.map (List.filter p)).flatten := by
  induction l with
  | nil => rfl
  | cons x xs ih => simp [List.filter_append, ih]

theorem barContribution_ne_nil (t : Tracker) (mh : String) (opts : CLIOptions)
    (gr gw : Bool) (bar : Nat) : barContribution t mh opts gr gw bar ≠ [] := by
  simp [barContribution]

/-- The non-blank lines a BAR contributes, if it is in `processed_data`. -/
def modLinesFiltered (t : Tracker) (mh : String) (opts : CLIOptions)
    (pd : List (Nat × List VData)) (bar : Nat) : List String :=
  if dMem pd bar then
    ((popTrailingBlanks (barContribution t mh opts (generateReadFlag opts)
        (generateWriteFlag opts) bar) ++ ["endmodule\n"]).filter strNonBlank)
  else []

theorem buildLines_filter (t : Tracker) (mh : String) (opts : CLIOptions)
    (pd : List (Nat × List VData)) (bars : List Nat) :
    (buildLines t mh opts pd bars).filter strNonBlank =
      (bars.map (modLinesFiltered t mh opts pd)).flatten := by
  unfold buildLines
  rw [filter_flatten, List.map_map]
  apply congrArg List.flatten
  apply List.map_congr_left
  intro bar _
  simp only [Function.comp_apply, modLinesFiltered]
  by_cases hm : dMem pd bar = true
  · simp only [hm, if_true]
    rw [if_pos (barContribution_ne_nil t mh opts _ _ bar)]
    rw [List.filter_append]
    by_cases hl : bars.getLast? = some bar
    · simp [hl]
    · simp [hl, strNonBlank]
  · simp [hm]

theorem flatten_map_filter_hasData (t : Tracker) (mh : String) (opts : CLIOptions)
    (pd : List (Nat × List VData)) (bars : List Nat)
    (h : ∀ bn, dMem pd bn = true → regHasData t bn = true) :
    ((bars.filter (fun bn => regHasData t bn)).map
        (modLinesFiltered t mh opts pd)).flatten =
      (bars.map (modLinesFiltered t mh opts pd)).flatten := by
  induction bars with
  | nil => rfl
  | cons bn rest ih =>
      by_cases hd : regHasData t bn = true
      · simp only [List.filter_cons, hd, if_true, List.map_cons, List.flatten_cons, ih]
      · have hmem : dMem pd bn = false := by
          cases hm : dMem pd bn
          · rfl
          · exact absurd (h bn hm) hd
        simp only [List.filter_cons, hd, Bool.false_eq_true, if_false, ih,
          List.map_cons, List.flatten_cons]
        rw [show modLinesFiltered t mh opts pd bn = [] from by
          simp [modLinesFiltered, hmem]]
        rfl

/-- C9: provided every BAR key of `processed_data` has registry
observations (the invariant established by the input step, which only
creates a key when an instance with that BAR was ingested), the
coordinator's concatenated output is unchanged when the no-data BARs are
removed from the selection, and a selected no-data BAR on its own
contributes no lines at all — no header, no `endmodule`, no empty
module. -/
theorem c9_no_data_bar_skipped (t : Tracker) (mh : String) (opts : CLIOptions)
    (pd : List (Nat × List VData)) (bars : List Nat)
    (h : ∀ bn, dMem pd bn = true → regHasData t bn = true) :
    joinOutput (buildLines t mh opts pd bars) =
      joinOutput (buildLines t mh opts pd
        (bars.filter (fun bn => regHasData t bn))) ∧
    (∀ bn, regHasData t bn = false → buildLines t mh opts pd [bn] = []) := by
  constructor
  · unfold joinOutput
    rw [buildLines_filter, buildLines_filter, flatten_map_filter_hasData t mh opts pd bars h]
  · intro bn hbn
    have hmem : dMem pd bn = false := by
      cases hm : dMem pd bn
      · rfl
      · exact absurd (h bn hm) (by simp [hbn])
    unfold buildLines
    simp [hmem]

/-- Registry and processed data for the C9 witness: BAR 0 has one read,
BAR 1 has nothing. -/
def c9ops : List VData := [⟨"R", 0, "00100", "00000005", 0⟩]

/-- Processed data holding only the BAR-0 key. -/
def c9pd : List (Nat × List VData) := [(0, c9ops)]

/-- C9 witness: selecting BARs 0 and 1 yields the same output as selecting
only the BARs with data, and BAR 1 alone contributes nothing. -/
theorem c9_witness :
    joinOutput (buildLines (trackerOfOps c9ops) "m" defaultCLIOptions c9pd [0, 1]) =
      joinOutput (buildLines (trackerOfOps c9ops) "m" defaultCLIOptions c9pd
        (([0, 1] : List Nat).filter (fun bn => regHasData (trackerOfOps c9ops) bn))) ∧
    buildLines (trackerOfOps c9ops) "m" defaultCLIOptions c9pd [1] = [] := by
  have h := c9_no_data_bar_skipped (trackerOfOps c9ops) "m" defaultCLIOptions c9pd [0, 1]
    (by
      intro bn hm
      have h0 : bn = 0 := by simpa [c9pd, dMem, dKeys] using hm
      subst h0
      decide)
  exact ⟨h.1, h.2 1 (by decide)⟩

end Mmio
